import Mathlib

/-!
Verification of the cosline vector-search core.

The Python source (app/services/sqlite_search_service.py together with
app/controllers/search_controller.py and the models in app/models) is shallowly
embedded below.  Python floats are modelled as real numbers; numpy operations
on equal-length vectors become operations on lists of reals; exceptions become
an explicit error type; the SQLite tables become in-memory lists of rows; the
service object's mutable fields (index_cache) become an explicit state record
threaded through the functions.

The faiss library is not part of the repository.  Its observable behaviour, as
used by the source, is modelled by an exact flat search standing in for the
HNSW approximate index: `IndexHNSWFlat(dim, M, metric)` stores the inserted
vectors, and `index.search(q, k)` asserts k > 0 (raising AssertionError
otherwise, as the faiss Python wrapper does) and returns the `k` best (index
ordinal, raw distance) pairs, ordered best-first in the metric's native order
- descending raw inner product for METRIC_INNER_PRODUCT, ascending squared L2
distance for METRIC_L2 (faiss returns squared distances for METRIC_L2).
-/

namespace Cosline

/-- Model of app/models/distance.py, class Distance. -/
inductive Distance where
  | Cosine
  | Euclidean
  | Dot
  | Manhattan
deriving DecidableEq

/-- Model of app/models/point.py, class Point.  The UUID id is modelled as a
string; the optional JSON metadata object is modelled as an optional string. -/
structure Point where
  id : String
  content : String
  embedding : List ℝ
  metadata : Option String

instance : Inhabited Point :=
  ⟨⟨"", "", [], none⟩⟩

/-- A row of the `vectors` SQLite table created by
SQLiteSearchService._initialize_db (id, vector_store_name, content, embedding,
metadata). -/
structure VectorRow where
  id : String
  vectorStoreName : String
  content : String
  embedding : List ℝ
  metadata : Option String

/-- The parsed JSON config of a collection, as consumed by _build_index via
config.get with defaults ('distance', 'Cosine'; hnsw_config M 16,
ef_construction 200, ef_search 50).  Absent keys are modelled as `none`. -/
structure Config where
  distance : Option String
  hnswM : Option Nat
  hnswEfConstruction : Option Nat
  hnswEfSearch : Option Nat

/-- The SQLite database contents seen by SQLiteSearchService: the `vectors`
table and the `collections` table (name, parsed config JSON). -/
structure DB where
  vectors : List VectorRow
  collections : List (String × Config)

/-- Python exceptions raised by the embedded code.  assertionError models the
AssertionError of a failed `assert` (its message is the empty string for a
bare assert such as the faiss wrapper's `assert k > 0`). -/
inductive PyError where
  | valueError : String → PyError
  | fileNotFoundError : String → PyError
  | runtimeError : String → PyError
  | assertionError : String → PyError
deriving DecidableEq

/-- One formatted search result, as the dict appended by search_vectors
(id, content, metadata, score). -/
structure SearchResult where
  id : String
  content : String
  metadata : Option String
  score : ℝ

/-! ## Metric engine: SQLiteSearchService.compute_similarity -/

/-- np.dot of two equal-length float vectors (modelled on lists by zipping). -/
def dot (a b : List ℝ) : ℝ :=
  ((a.zip b).map fun p => p.1 * p.2).sum

/-- np.linalg.norm: the L2 norm. -/
noncomputable def l2norm (a : List ℝ) : ℝ :=
  Real.sqrt (dot a a)

/-- Elementwise division of a vector by its L2 norm (`query / np.linalg.norm(query)`,
also what faiss.normalize_L2 does to a single vector). -/
noncomputable def normalize (a : List ℝ) : List ℝ :=
  a.map fun x => x / l2norm a

/-- Elementwise vector difference (numpy `query - vector` on equal shapes). -/
def vsub (a b : List ℝ) : List ℝ :=
  (a.zip b).map fun p => p.1 - p.2

/-- np.sum(np.abs(v)): the L1 norm. -/
def l1norm (a : List ℝ) : ℝ :=
  (a.map fun x => |x|).sum

/-- Model of SQLiteSearchService.compute_similarity (lines 42-63): cosine of
the two normalized vectors, negated Euclidean norm of the difference, plain
dot product, or negated L1 norm of the difference.  The `else` branch raising
ValueError is unreachable because `Distance` is exactly the four-member enum. -/
noncomputable def computeSimilarity (queryVector pointVector : List ℝ)
    (distanceType : Distance) : ℝ :=
  match distanceType with
  | .Cosine => dot (normalize queryVector) (normalize pointVector)
  | .Euclidean => -(Real.sqrt (dot (vsub queryVector pointVector) (vsub queryVector pointVector)))
  | .Dot => dot queryVector pointVector
  | .Manhattan => -(l1norm (vsub queryVector pointVector))

/-! ## Model of the faiss index as used by _build_index / search_vectors

faiss itself is not part of the repository; the definitions below model the
documented behaviour of the calls the source makes (IndexHNSWFlat, add,
search), with the HNSW approximation idealised as exact flat search. -/

/-- The two faiss metric constants the source selects between:
faiss.METRIC_INNER_PRODUCT and faiss.METRIC_L2. -/
inductive FaissMetric where
  | innerProduct
  | l2
deriving DecidableEq

/-- A built faiss index: the constructor arguments of
faiss.IndexHNSWFlat(dim, M, metric), the two efConstruction/efSearch settings,
and the vectors inserted by index.add. -/
structure FaissIndex where
  dim : Nat
  hnswM : Nat
  metric : FaissMetric
  efConstruction : Nat
  efSearch : Nat
  vectors : List (List ℝ)

/-- The raw distance value faiss reports for a query/vector pair: the inner
product for METRIC_INNER_PRODUCT, the squared L2 distance for METRIC_L2. -/
def rawDistance (metric : FaissMetric) (q v : List ℝ) : ℝ :=
  match metric with
  | .innerProduct => dot q v
  | .l2 => dot (vsub q v) (vsub q v)

/-- Best-first order on (ordinal, raw distance) pairs: for inner product,
larger raw values come first; for L2, smaller raw values come first. -/
def faissLE (metric : FaissMetric) (a b : Nat × ℝ) : Prop :=
  match metric with
  | .innerProduct => b.2 ≤ a.2
  | .l2 => a.2 ≤ b.2

noncomputable instance (metric : FaissMetric) : DecidableRel (faissLE metric) := by
  cases metric <;> exact fun a b => Real.decidableLE _ _

instance (metric : FaissMetric) : IsTotal (Nat × ℝ) (faissLE metric) := by
  cases metric <;> exact ⟨fun a b => le_total _ _⟩

instance (metric : FaissMetric) : IsTrans (Nat × ℝ) (faissLE metric) := by
  cases metric
  · exact ⟨fun a b c h1 h2 => le_trans h2 h1⟩
  · exact ⟨fun a b c h1 h2 => le_trans h1 h2⟩

/-- The top-k selection index.search performs once its argument check has
passed: score every stored vector against the query, order best-first in the
metric's native order, and return the first k (ordinal, raw distance) pairs.
Because the source always passes k = min(top_k, number of stored vectors), no
-1 padding entries arise. -/
noncomputable def faissSearchRaw (idx : FaissIndex) (q : List ℝ) (k : Nat) :
    List (Nat × ℝ) :=
  let scored := idx.vectors.enum.map fun p => (p.1, rawDistance idx.metric q p.2)
  (List.insertionSort (faissLE idx.metric) scored).take k

/-- Model of index.search(query, k): the faiss Python wrapper asserts k > 0,
so any non-positive k raises AssertionError (with an empty message) instead of
searching; otherwise the top-k hits are returned. -/
noncomputable def faissSearch (idx : FaissIndex) (q : List ℝ) (k : Int) :
    Except PyError (List (Nat × ℝ)) :=
  if k ≤ 0 then .error (.assertionError "")
  else .ok (faissSearchRaw idx q k.toNat)

/-! ## The SQLiteSearchService embedding -/

/-- One value of the index_cache dict (line 154-159 of the service): the faiss
index, the points used to build it, the ordinal-to-point dict
`\x7bi: point for i, point in enumerate(points)\x7d` (modelled as an
association list), and the distance-type string from the config. -/
structure CacheEntry where
  index : FaissIndex
  points : List Point
  idMapping : List (Nat × Point)
  distanceType : String

instance : Inhabited CacheEntry :=
  ⟨⟨0, 0, .innerProduct, 0, 0, []⟩, [], [], ""⟩

/-- The mutable state of a SQLiteSearchService instance: the index_cache dict,
plus a ghost build counter (the observable "build counter in tests" of the
spec) incremented each time _build_index stores an entry. -/
structure ServiceState where
  cache : List (String × CacheEntry)
  buildCount : Nat

/-- The state of a freshly constructed SQLiteSearchService (empty cache). -/
def initState : ServiceState :=
  ⟨[], 0⟩

/-- Dict lookup in index_cache. -/
def cacheFind (st : ServiceState) (name : String) : Option CacheEntry :=
  (st.cache.find? fun p => p.1 == name).map fun p => p.2

def rowToPoint (r : VectorRow) : Point :=
  ⟨r.id, r.content, r.embedding, r.metadata⟩

/-- The points of a named collection, in table order (the SELECT of
load_points). -/
def pointsOf (db : DB) (name : String) : List Point :=
  (db.vectors.filter fun r => r.vectorStoreName == name).map rowToPoint

/-- Model of SQLiteSearchService.load_points (lines 78-107): select the rows
of the collection, build Point values, and raise FileNotFoundError when the
collection has no rows. -/
def loadPoints (db : DB) (name : String) : Except PyError (List Point) :=
  let points := pointsOf db name
  if points.isEmpty then
    .error (.fileNotFoundError ("Vector store not found or empty: " ++ name))
  else
    .ok points

/-- Model of SQLiteSearchService._get_vector_store_config (lines 65-76). -/
def getVectorStoreConfig (db : DB) (name : String) : Except PyError Config :=
  match db.collections.find? fun p => p.1 == name with
  | some p => .ok p.2
  | none => .error (.fileNotFoundError ("Vector store not found: " ++ name))

/-- The metric-selection branch of _build_index (lines 120-125): Cosine uses
faiss.METRIC_INNER_PRODUCT, Euclidean and Manhattan use faiss.METRIC_L2, and
anything else (in particular Dot) falls to the default METRIC_INNER_PRODUCT. -/
def selectMetric (distanceType : String) : FaissMetric :=
  if distanceType = "Cosine" then .innerProduct
  else if distanceType = "Euclidean" ∨ distanceType = "Manhattan" then .l2
  else .innerProduct

/-- Model of SQLiteSearchService._build_index (lines 109-161): no-op on an
empty point list; otherwise read dimension, distance string and HNSW settings,
build the faiss index over the embeddings (L2-normalized first when the
distance is Cosine), and store the cache entry.  index.train and index.add
never fail in the model (non-finite floats do not exist over ℝ). -/
noncomputable def buildIndex (st : ServiceState) (name : String)
    (points : List Point) (config : Config) : ServiceState :=
  if points.isEmpty then st
  else
    let distanceType := config.distance.getD "Cosine"
    let idx : FaissIndex :=
      { dim := points.headI.embedding.length
        hnswM := config.hnswM.getD 16
        metric := selectMetric distanceType
        efConstruction := config.hnswEfConstruction.getD 200
        efSearch := config.hnswEfSearch.getD 50
        vectors :=
          if distanceType = "Cosine" then points.map fun p => normalize p.embedding
          else points.map fun p => p.embedding }
    { cache := (name, ⟨idx, points, points.enum, distanceType⟩) :: st.cache
      buildCount := st.buildCount + 1 }

/-- The score conversion of search_vectors (lines 197-201): (1 + raw) / 2 when
the cached distance type is Cosine, 1 / (1 + raw) otherwise. -/
noncomputable def scoreOfRaw (distanceType : String) (d : ℝ) : ℝ :=
  if distanceType = "Cosine" then (1 + d) / 2 else 1 / (1 + d)

/-- The result-formatting loop of search_vectors (lines 190-208): skip
negative ordinals, look the ordinal up in id_mapping (a missing key would be a
Python KeyError), convert the raw distance to a score, and emit the result
dict.  Order is preserved. -/
noncomputable def formatResults (e : CacheEntry) :
    List (Nat × ℝ) → Except PyError (List SearchResult)
  | [] => .ok []
  | (i, d) :: rest =>
    if (i : Int) < 0 then formatResults e rest
    else
      match e.idMapping.lookup i with
      | none => .error (.runtimeError "KeyError")
      | some p =>
        match formatResults e rest with
        | .error err => .error err
        | .ok tail =>
          .ok ({ id := p.id, content := p.content, metadata := p.metadata
                 score := scoreOfRaw e.distanceType d } :: tail)

/-- The query phase of search_vectors (lines 177-210), once the cache is
populated: fetch the cache entry (a missing entry would be a Python KeyError),
L2-normalize the query for Cosine, search the faiss index for
min(top_k, number of points) neighbours (faiss raising AssertionError when
that bound is not positive), and format the results. -/
noncomputable def queryIndex (st : ServiceState) (name : String)
    (queryVector : List ℝ) (topK : Int) : Except PyError (List SearchResult) :=
  match cacheFind st name with
  | none => .error (.runtimeError "KeyError")
  | some e =>
    let query := if e.distanceType = "Cosine" then normalize queryVector else queryVector
    match faissSearch e.index query (min topK (e.points.length : Int)) with
    | .error err => .error err
    | .ok hits => formatResults e hits

/-- Model of SQLiteSearchService.search_vectors (lines 163-214): build the
index on a cache miss (loading points and config first), then query it.  The
distance_type parameter is accepted, as in the source, and never read.  The
returned state is the service state after the call, mirroring the mutation of
self.index_cache. -/
noncomputable def searchVectors (st : ServiceState) (db : DB) (name : String)
    (queryVector : List ℝ) (topK : Int) (distanceType : Distance) :
    ServiceState × Except PyError (List SearchResult) :=
  if (cacheFind st name).isNone then
    match loadPoints db name with
    | .error e => (st, .error e)
    | .ok points =>
      match getVectorStoreConfig db name with
      | .error e => (st, .error e)
      | .ok config =>
        let st1 := buildIndex st name points config
        (st1, queryIndex st1 name queryVector topK)
  else
    (st, queryIndex st name queryVector topK)

/-- Model of SQLiteSearchService.search_by_id (lines 216-247): select the
stored embedding of the point, raise ValueError when absent, and otherwise
delegate to search_vectors with that embedding (distance_type left at its
Distance.Cosine default). -/
noncomputable def searchById (st : ServiceState) (db : DB) (name pid : String)
    (topK : Int) : ServiceState × Except PyError (List SearchResult) :=
  match db.vectors.find? fun r => r.vectorStoreName == name && r.id == pid with
  | none => (st, .error (.valueError ("Point not found with ID: " ++ pid)))
  | some r => searchVectors st db name r.embedding topK Distance.Cosine

/-! ## The API layer: app/controllers/search_controller.py -/

/-- An HTTP-level outcome: a 200 body with results, or an HTTPException with a
status code and detail string. -/
inductive HTTPResponse where
  | ok : List SearchResult → HTTPResponse
  | httpError : Nat → String → HTTPResponse

/-- The request body of POST /collections/name/search (class SearchQuery). -/
structure SearchQuery where
  queryVector : List ℝ
  topK : Int
  distanceType : Distance

/-- The exception mapping of the search_vectors controller (lines 71-88):
ValueError to 400, FileNotFoundError to 404 collection-not-found, any other
exception (RuntimeError included) to 500. -/
def mapSearchError (name : String) : PyError → HTTPResponse
  | .valueError msg => .httpError 400 msg
  | .fileNotFoundError _ => .httpError 404 ("Collection " ++ name ++ " not found")
  | .runtimeError msg => .httpError 500 ("Search failed: " ++ msg)
  | .assertionError msg => .httpError 500 ("Search failed: " ++ msg)

/-- Model of the search_vectors controller (lines 37-88).  The dependency
get_search_service constructs a fresh SQLiteSearchService for every request,
so every request starts from an empty index cache (initState).  The empty
query vector is rejected with a ValueError caught as a 400 before the service
is invoked.  The final state of the request's service instance is returned
alongside the response. -/
noncomputable def apiSearchVectors (db : DB) (name : String) (q : SearchQuery) :
    ServiceState × HTTPResponse :=
  let st := initState
  if q.queryVector.isEmpty then
    (st, .httpError 400 "Query vector cannot be empty")
  else
    let r := searchVectors st db name q.queryVector q.topK q.distanceType
    (r.1, match r.2 with
          | .ok res => .ok res
          | .error e => mapSearchError name e)

/-- Python's `"Point not found" in str(e)` substring test on the message of a
RuntimeError (line 137 of the controller). -/
def mentionsPointNotFound (msg : String) : Bool :=
  (msg.splitOn "Point not found").length != 1

/-- Model of the search_by_id controller (lines 91-152): empty or blank point
id is rejected with 400; ValueError maps to 400, FileNotFoundError to 404
collection-not-found, RuntimeError to 404 point-not-found when its message
mentions "Point not found" and to 500 otherwise.  As in apiSearchVectors the
service instance is fresh per request. -/
noncomputable def apiSearchById (db : DB) (name pid : String) (topK : Int) :
    ServiceState × HTTPResponse :=
  let st := initState
  if pid = "" ∨ pid.toList.all (fun c => c.isWhitespace) then
    (st, .httpError 400 "Point ID cannot be empty")
  else
    let r := searchById st db name pid topK
    (r.1, match r.2 with
          | .ok res => .ok res
          | .error (.valueError msg) => .httpError 400 msg
          | .error (.fileNotFoundError _) =>
              .httpError 404 ("Collection " ++ name ++ " not found")
          | .error (.runtimeError msg) =>
              if mentionsPointNotFound msg then
                .httpError 404 ("Point with ID " ++ pid ++ " not found")
              else .httpError 500 msg
          | .error (.assertionError msg) =>
              .httpError 500 ("Search by ID failed: " ++ msg))

/-- Total number of index builds performed while serving a sequence of search
requests, each handled as the API does it (one fresh service per request). -/
noncomputable def totalBuilds (db : DB) (reqs : List (String × SearchQuery)) : Nat :=
  (reqs.map fun r => ((apiSearchVectors db r.1 r.2).1).buildCount).sum

/-! ## Concrete data used by witnesses and counterexamples -/

/-- Projection of a search outcome to its result list (empty on error), used
to name the result list of a concrete run inside closed statements. -/
def okOr : Except PyError (List SearchResult) → List SearchResult
  | .ok res => res
  | .error _ => []

/-- A database with one collection "c" (distance Cosine) holding one point. -/
def exDb : DB :=
  { vectors := [⟨"p1", "c", "hello", [1], none⟩]
    collections := [("c", ⟨some "Cosine", none, none, none⟩)] }

/-- A database whose collection "empty" is configured but has zero points. -/
def exEmptyDb : DB :=
  { vectors := []
    collections := [("empty", ⟨some "Cosine", none, none, none⟩)] }

/-- A database with one collection "docs" (distance Cosine) holding one point,
for the search_by_id scenario. -/
def exDocsDb : DB :=
  { vectors := [⟨"p1", "docs", "doc one", [1, 0, 0], none⟩]
    collections := [("docs", ⟨some "Cosine", none, none, none⟩)] }

/-- A database with one collection "d" of distance Dot holding two
one-dimensional points with embeddings [1] and [2]. -/
def exDotDb : DB :=
  { vectors := [⟨"q1", "d", "one", [1], none⟩, ⟨"q2", "d", "two", [2], none⟩]
    collections := [("d", ⟨some "Dot", none, none, none⟩)] }

/-- The configuration of the example collection "c". -/
def exConfig : Config := ⟨some "Cosine", none, none, none⟩

/-- The service state after building the index of the example collection. -/
noncomputable def exBuilt : ServiceState :=
  buildIndex initState "c" (pointsOf exDb "c") exConfig

/-- The cache entry stored for the example collection. -/
noncomputable def exEntry : CacheEntry :=
  (cacheFind exBuilt "c").getD default

/-- The cache entry built for the Dot-distance collection "d" of exDotDb. -/
noncomputable def exDotEntry : CacheEntry :=
  (cacheFind (buildIndex initState "d" (pointsOf exDotDb "d")
    ⟨some "Dot", none, none, none⟩) "d").getD default

/-- One step of the result-formatting loop as an optional value: `none` for a
skipped negative ordinal, otherwise the formatted result of the id_mapping
lookup.  formatResults agrees with filterMap of this function whenever it
succeeds (theorem formatResults_ok). -/
noncomputable def resFun (e : CacheEntry) (p : Nat × ℝ) : Option SearchResult :=
  if (p.1 : Int) < 0 then none
  else (e.idMapping.lookup p.1).map fun pt =>
    ⟨pt.id, pt.content, pt.metadata, scoreOfRaw e.distanceType p.2⟩

/-- The invariant of a stored cache entry: a non-empty point list whose
id_mapping is exactly the enumeration of the points in insertion order. -/
def entryInv (e : CacheEntry) : Prop :=
  e.points ≠ [] ∧ e.idMapping = e.points.enum

/-- Every entry of the index_cache satisfies the entry invariant. -/
def stateInv (st : ServiceState) : Prop :=
  ∀ p ∈ st.cache, entryInv p.2

/-! ## Basic lemmas about the vector operations -/

theorem dot_nil_right (a : List ℝ) : dot a [] = 0 := by
  cases a <;> rfl

theorem dot_cons (x y : ℝ) (a b : List ℝ) :
    dot (x :: a) (y :: b) = x * y + dot a b := by
  simp [dot]

theorem dot_self_nonneg (a : List ℝ) : 0 ≤ dot a a := by
  induction a with
  | nil => simp [dot]
  | cons x a ih =>
      rw [dot_cons]
      have := mul_self_nonneg x
      linarith

theorem le_of_sq_le_sq_of_nonneg (P Q : ℝ) (hP : 0 ≤ P) (h : Q ^ 2 ≤ P ^ 2) : Q ≤ P := by
  have h1 := Real.sqrt_le_sqrt h
  rw [Real.sqrt_sq_eq_abs, Real.sqrt_sq_eq_abs] at h1
  calc Q ≤ |Q| := le_abs_self Q
  _ ≤ |P| := h1
  _ = P := abs_of_nonneg hP

/-- Cauchy-Schwarz for the list dot product, squared form. -/
theorem dot_sq_le (a : List ℝ) : ∀ b : List ℝ, (dot a b) ^ 2 ≤ dot a a * dot b b := by
  induction a with
  | nil => intro b; simp [dot]
  | cons x a ih =>
      intro b
      cases b with
      | nil =>
          rw [dot_nil_right, dot_nil_right]
          simp
      | cons y b =>
          rw [dot_cons, dot_cons, dot_cons]
          have hab := ih b
          have ha := dot_self_nonneg a
          have hb := dot_self_nonneg b
          have hP : 0 ≤ x ^ 2 * dot b b + y ^ 2 * dot a a :=
            add_nonneg (mul_nonneg (sq_nonneg x) hb) (mul_nonneg (sq_nonneg y) ha)
          have hsq : (2 * (x * y) * dot a b) ^ 2 ≤ (x ^ 2 * dot b b + y ^ 2 * dot a a) ^ 2 := by
            nlinarith [sq_nonneg (x ^ 2 * dot b b - y ^ 2 * dot a a),
              mul_nonneg (mul_nonneg (sq_nonneg x) (sq_nonneg y)) (sub_nonneg.2 hab)]
          have key := le_of_sq_le_sq_of_nonneg _ _ hP hsq
          nlinarith [key, hab]

theorem dot_le_l2norm_mul (a b : List ℝ) : dot a b ≤ l2norm a * l2norm b := by
  have h1 : dot a b ≤ |dot a b| := le_abs_self _
  have h2 : |dot a b| = Real.sqrt ((dot a b) ^ 2) := (Real.sqrt_sq_eq_abs _).symm
  have h3 : Real.sqrt ((dot a b) ^ 2) ≤ Real.sqrt (dot a a * dot b b) :=
    Real.sqrt_le_sqrt (dot_sq_le a b)
  have h4 : Real.sqrt (dot a a * dot b b) = l2norm a * l2norm b := by
    rw [l2norm, l2norm, Real.sqrt_mul (dot_self_nonneg a)]
  linarith [h1, h2 ▸ h3.trans_eq h4]

theorem dot_map_div (s t : ℝ) (a : List ℝ) :
    ∀ b : List ℝ, dot (a.map fun x => x / s) (b.map fun x => x / t) = dot a b / (s * t) := by
  induction a with
  | nil => intro b; simp [dot]
  | cons x a ih =>
      intro b
      cases b with
      | nil => simp [dot]
      | cons y b =>
          simp only [List.map_cons, dot_cons, ih b]
          rw [div_mul_div_comm, add_div]

theorem l2norm_nonneg (a : List ℝ) : 0 ≤ l2norm a :=
  Real.sqrt_nonneg _

theorem l2norm_mul_self (a : List ℝ) : l2norm a * l2norm a = dot a a :=
  Real.mul_self_sqrt (dot_self_nonneg a)

/-- The cosine similarity of any two vectors is at most 1 (with Lean's
division-by-zero convention covering degenerate vectors). -/
theorem cosine_le_one (a b : List ℝ) : dot (normalize a) (normalize b) ≤ 1 := by
  rw [normalize, normalize, dot_map_div]
  rcases eq_or_lt_of_le (mul_nonneg (l2norm_nonneg a) (l2norm_nonneg b)) with h | h
  · rw [← h, div_zero]
    exact zero_le_one
  · rw [div_le_one h]
    exact dot_le_l2norm_mul a b

theorem cosine_self (a : List ℝ) (ha : dot a a ≠ 0) :
    dot (normalize a) (normalize a) = 1 := by
  rw [normalize, dot_map_div, l2norm_mul_self]
  exact div_self ha

theorem dot_vsub_self (a : List ℝ) : dot (vsub a a) (vsub a a) = 0 := by
  induction a with
  | nil => simp [dot, vsub]
  | cons x a ih =>
      have : vsub (x :: a) (x :: a) = (x - x) :: vsub a a := by simp [vsub]
      rw [this, dot_cons, ih]
      ring

theorem l1norm_nonneg (a : List ℝ) : 0 ≤ l1norm a := by
  induction a with
  | nil => simp [l1norm]
  | cons x a ih =>
      have hx := abs_nonneg x
      simp only [l1norm, List.map_cons, List.sum_cons]
      have : (0 : ℝ) ≤ (a.map fun x => |x|).sum := ih
      linarith

theorem l1norm_vsub_self (a : List ℝ) : l1norm (vsub a a) = 0 := by
  induction a with
  | nil => simp [l1norm, vsub]
  | cons x a ih =>
      have : vsub (x :: a) (x :: a) = (x - x) :: vsub a a := by simp [vsub]
      rw [this]
      simp only [l1norm, List.map_cons, List.sum_cons] at ih ⊢
      rw [ih]
      simp


/-! ## Shared helper lemmas about the service -/

theorem cacheFind_initState (name : String) : cacheFind initState name = none := rfl

theorem loadPoints_of_empty {db : DB} {name : String} (h : pointsOf db name = []) :
    loadPoints db name =
      .error (.fileNotFoundError ("Vector store not found or empty: " ++ name)) := by
  simp [loadPoints, h]

theorem searchVectors_of_empty {db : DB} {name : String} (st : ServiceState)
    (q : List ℝ) (topK : Int) (dt : Distance)
    (hempty : pointsOf db name = []) (hmiss : cacheFind st name = none) :
    searchVectors st db name q topK dt =
      (st, .error (.fileNotFoundError ("Vector store not found or empty: " ++ name))) := by
  simp [searchVectors, hmiss, loadPoints_of_empty hempty]

theorem l2norm_normalize (a : List ℝ) (ha : dot a a ≠ 0) :
    l2norm (normalize a) = 1 := by
  rw [l2norm, cosine_self a ha, Real.sqrt_one]

theorem isEmpty_eq_false_of_ne_nil {α : Type} {l : List α} (h : l ≠ []) :
    l.isEmpty = false := by
  cases l with
  | nil => exact absurd rfl h
  | cons a l => rfl

/-- The cache entry _build_index stores for a non-empty point list. -/
theorem cacheFind_buildIndex (st : ServiceState) (name : String)
    (points : List Point) (config : Config) (hne : points ≠ []) :
    cacheFind (buildIndex st name points config) name =
      some ⟨⟨points.headI.embedding.length, config.hnswM.getD 16,
             selectMetric (config.distance.getD "Cosine"),
             config.hnswEfConstruction.getD 200, config.hnswEfSearch.getD 50,
             if config.distance.getD "Cosine" = "Cosine" then
               points.map fun p => normalize p.embedding
             else points.map fun p => p.embedding⟩,
            points, points.enum, config.distance.getD "Cosine"⟩ := by
  simp [buildIndex, cacheFind, isEmpty_eq_false_of_ne_nil hne]

/-- On a cache hit with a Cosine entry, the query phase is exactly the faiss
search over the normalized query vector, bound to the formatting loop. -/
theorem queryIndex_eq_of_cosine {st : ServiceState} {name : String}
    {qv : List ℝ} {topK : Int} {e : CacheEntry}
    (he : cacheFind st name = some e) (hcos : e.distanceType = "Cosine") :
    queryIndex st name qv topK =
      Except.bind (faissSearch e.index (normalize qv) (min topK (e.points.length : Int)))
        (formatResults e) := by
  rw [queryIndex, he]
  show (match faissSearch e.index
      (if e.distanceType = "Cosine" then normalize qv else qv)
      (min topK (e.points.length : Int)) with
    | .error err => (.error err : Except PyError (List SearchResult))
    | .ok hits => formatResults e hits) = _
  rw [if_pos hcos]
  cases faissSearch e.index (normalize qv) (min topK (e.points.length : Int)) <;> rfl

theorem lookup_enumFrom {α : Type} (l : List α) :
    ∀ (n i : Nat), (l.enumFrom n).lookup (n + i) = l.get? i := by
  induction l with
  | nil => intro n i; rfl
  | cons a l ih =>
      intro n i
      cases i with
      | zero => simp [List.enumFrom, List.lookup]
      | succ j =>
          have h1 : (n + (j + 1) == n) = false := by
            simp only [beq_eq_false_iff_ne, ne_eq]
            omega
          have h2 : n + (j + 1) = (n + 1) + j := by omega
          simp only [List.enumFrom, List.lookup, h1]
          rw [h2, ih (n + 1) j]
          rfl

theorem lookup_enum {α : Type} (l : List α) (i : Nat) :
    l.enum.lookup i = l.get? i := by
  have := lookup_enumFrom l 0 i
  simpa [List.enum] using this

theorem resFun_eq_some {e : CacheEntry} {p : Nat × ℝ} {x : SearchResult}
    (h : resFun e p = some x) :
    ∃ pt, e.idMapping.lookup p.1 = some pt ∧ x.id = pt.id ∧ x.content = pt.content ∧
      x.metadata = pt.metadata ∧ x.score = scoreOfRaw e.distanceType p.2 := by
  rw [resFun] at h
  have hge : ¬ ((p.1 : Int) < 0) := not_lt.2 (Int.natCast_nonneg p.1)
  rw [if_neg hge] at h
  cases hl : e.idMapping.lookup p.1 with
  | none => rw [hl] at h; cases h
  | some pt =>
      rw [hl] at h
      refine ⟨pt, rfl, ?_⟩
      cases Option.some.inj h
      exact ⟨rfl, rfl, rfl, rfl⟩

/-- On success, the formatting loop is filterMap of resFun over the hits. -/
theorem formatResults_ok (e : CacheEntry) :
    ∀ (hits : List (Nat × ℝ)) (res : List SearchResult),
      formatResults e hits = .ok res → res = hits.filterMap (resFun e) := by
  intro hits
  induction hits with
  | nil =>
      intro res h
      cases h
      rfl
  | cons p rest ih =>
      intro res h
      obtain ⟨i, d⟩ := p
      have hge : ¬ (((i : Nat) : Int) < 0) := not_lt.2 (Int.natCast_nonneg i)
      rw [formatResults, if_neg hge] at h
      cases hl : e.idMapping.lookup i with
      | none => rw [hl] at h; cases h
      | some pt =>
          rw [hl] at h
          cases hr : formatResults e rest with
          | error err => rw [hr] at h; cases h
          | ok tail =>
              rw [hr] at h
              cases h
              rw [List.filterMap_cons]
              have hres : resFun e (i, d) =
                  some ⟨pt.id, pt.content, pt.metadata, scoreOfRaw e.distanceType d⟩ := by
                rw [resFun, if_neg hge, hl]
                rfl
              rw [hres, ← ih tail hr]

/-- The hits returned by the modelled faiss search are sorted best-first. -/
theorem faissSearchRaw_sorted (idx : FaissIndex) (q : List ℝ) (k : Nat) :
    (faissSearchRaw idx q k).Pairwise (faissLE idx.metric) :=
  (List.sorted_insertionSort (faissLE idx.metric) _).sublist (List.take_sublist _ _)

/-- Every hit of the modelled faiss search is an in-range ordinal together
with the raw distance of the corresponding stored vector. -/
theorem mem_faissSearchRaw {idx : FaissIndex} {q : List ℝ} {k : Nat} {p : Nat × ℝ}
    (hp : p ∈ faissSearchRaw idx q k) :
    p.1 < idx.vectors.length ∧
      ∃ v, idx.vectors.get? p.1 = some v ∧ p.2 = rawDistance idx.metric q v := by
  have h1 : p ∈ (idx.vectors.enum.map fun r => (r.1, rawDistance idx.metric q r.2)) := by
    have h2 := List.mem_of_mem_take hp
    exact ((List.perm_insertionSort (faissLE idx.metric) _).mem_iff).1 h2
  obtain ⟨⟨i, v⟩, hmem, hp2⟩ := List.mem_map.1 h1
  have h3 : idx.vectors.get? i = some v := by
    have := List.mk_mem_enum_iff_getElem?.1 hmem
    simpa [List.get?_eq_getElem?] using this
  have h4 : i < idx.vectors.length := by
    have := List.getElem?_eq_some_iff.1 (by simpa [List.get?_eq_getElem?] using h3)
    exact this.1
  cases hp2
  exact ⟨h4, v, h3, rfl⟩

/-- The hits of the modelled faiss search carry pairwise distinct ordinals. -/
theorem faissSearchRaw_pairwise_ne (idx : FaissIndex) (q : List ℝ) (k : Nat) :
    (faissSearchRaw idx q k).Pairwise fun a b => a.1 ≠ b.1 := by
  have h0 : ((idx.vectors.enum.map fun r => (r.1, rawDistance idx.metric q r.2)).map
      Prod.fst).Nodup := by
    rw [List.map_map]
    have : (Prod.fst ∘ fun r : Nat × List ℝ => (r.1, rawDistance idx.metric q r.2)) =
        Prod.fst := rfl
    rw [this, List.enum_map_fst]
    exact List.nodup_range _
  have h1 : (idx.vectors.enum.map fun r => (r.1, rawDistance idx.metric q r.2)).Pairwise
      fun a b => a.1 ≠ b.1 := List.pairwise_map.1 h0
  have h2 := ((List.perm_insertionSort (faissLE idx.metric) _).pairwise_iff
    fun h => h.symm).2 h1
  exact h2.sublist (List.take_sublist _ _)

/-- On a cache hit, search_vectors leaves the state unchanged and only runs
the query phase. -/
theorem searchVectors_hit {st : ServiceState} {name : String} (db : DB)
    (q : List ℝ) (topK : Int) (dt : Distance) {e : CacheEntry}
    (he : cacheFind st name = some e) :
    searchVectors st db name q topK dt = (st, queryIndex st name q topK) := by
  simp [searchVectors, he]

/-- Decomposition of a successful cache-miss run of search_vectors. -/
theorem searchVectors_ok_miss {st : ServiceState} {db : DB} {name : String}
    {q : List ℝ} {topK : Int} {dt : Distance} {st' : ServiceState}
    {res : List SearchResult}
    (hmiss : cacheFind st name = none)
    (hrun : searchVectors st db name q topK dt = (st', .ok res)) :
    pointsOf db name ≠ [] ∧
    ∃ config, getVectorStoreConfig db name = .ok config ∧
      st' = buildIndex st name (pointsOf db name) config ∧
      queryIndex st' name q topK = .ok res := by
  rw [searchVectors, hmiss] at hrun
  simp only [Option.isNone_none, if_true] at hrun
  cases hp : (pointsOf db name).isEmpty with
  | true =>
      rw [loadPoints] at hrun
      simp only [hp, if_true] at hrun
      cases (Prod.mk.inj hrun).2
  | false =>
      have hne : pointsOf db name ≠ [] := by
        intro h
        rw [h] at hp
        cases hp
      rw [loadPoints] at hrun
      simp only [hp, if_false, Bool.false_eq_true] at hrun
      cases hc : getVectorStoreConfig db name with
      | error err =>
          rw [hc] at hrun
          cases (Prod.mk.inj hrun).2
      | ok config =>
          rw [hc] at hrun
          have h1 := (Prod.mk.inj hrun).1
          have h2 := (Prod.mk.inj hrun).2
          exact ⟨hne, config, rfl, h1.symm, h1 ▸ h2⟩

/-- A successful faiss search means the k > 0 assertion passed and the hits
are the top-k selection. -/
theorem faissSearch_ok {idx : FaissIndex} {q : List ℝ} {k : Int}
    {hits : List (Nat × ℝ)} (h : faissSearch idx q k = .ok hits) :
    0 < k ∧ hits = faissSearchRaw idx q k.toNat := by
  rw [faissSearch] at h
  by_cases hk : k ≤ 0
  · rw [if_pos hk] at h
    cases h
  · rw [if_neg hk] at h
    exact ⟨lt_of_not_le hk, (Except.ok.inj h).symm⟩

/-- A successful query phase returns exactly filterMap of resFun over the
faiss hits for the cached entry. -/
theorem queryIndex_ok {st1 : ServiceState} {name : String} {q : List ℝ}
    {topK : Int} {e : CacheEntry} {res : List SearchResult}
    (he : cacheFind st1 name = some e)
    (hq : queryIndex st1 name q topK = .ok res) :
    res = (faissSearchRaw e.index
      (if e.distanceType = "Cosine" then normalize q else q)
      (min topK (e.points.length : Int)).toNat).filterMap (resFun e) := by
  rw [queryIndex, he] at hq
  have hq' : (match faissSearch e.index
      (if e.distanceType = "Cosine" then normalize q else q)
      (min topK (e.points.length : Int)) with
    | .error err => (.error err : Except PyError (List SearchResult))
    | .ok hits => formatResults e hits) = .ok res := hq
  cases hfs : faissSearch e.index (if e.distanceType = "Cosine" then normalize q else q)
      (min topK (e.points.length : Int)) with
  | error err =>
      rw [hfs] at hq'
      cases hq'
  | ok hits =>
      rw [hfs] at hq'
      rw [← (faissSearch_ok hfs).2]
      exact formatResults_ok e hits res hq'

/-! ## Claim C1 -/

/-- Claim C1, counterexample: searching the configured-but-empty collection
"empty" with query [1,2,3] and top_k 5 does not return an empty result
sequence; the orchestrator raises FileNotFoundError from load_points and the
API layer surfaces it as a 404 collection-not-found error. -/
theorem c1_counterexample :
    (apiSearchVectors exEmptyDb "empty" ⟨[1, 2, 3], 5, .Cosine⟩).2 =
      .httpError 404 "Collection empty not found" ∧
    ∀ res, (apiSearchVectors exEmptyDb "empty" ⟨[1, 2, 3], 5, .Cosine⟩).2 ≠ .ok res :=
  ⟨rfl, fun _ h => HTTPResponse.noConfusion h⟩

/-- Claim C1, amended: for every collection with zero points, search_by_vector
raises FileNotFoundError ("Vector store not found or empty") from load_points,
and the API layer surfaces it as a 404 collection-not-found error, not as an
empty result sequence. -/
theorem c1_amended (db : DB) (name : String) (st : ServiceState) (q : List ℝ)
    (topK : Int) (dt : Distance)
    (hempty : pointsOf db name = []) (hmiss : cacheFind st name = none) (hq : q ≠ []) :
    searchVectors st db name q topK dt =
      (st, .error (.fileNotFoundError ("Vector store not found or empty: " ++ name))) ∧
    (apiSearchVectors db name ⟨q, topK, dt⟩).2 =
      .httpError 404 ("Collection " ++ name ++ " not found") := by
  refine ⟨searchVectors_of_empty st q topK dt hempty hmiss, ?_⟩
  cases q with
  | nil => exact absurd rfl hq
  | cons x xs =>
      simp [apiSearchVectors,
        searchVectors_of_empty initState (x :: xs) topK dt hempty (cacheFind_initState name),
        mapSearchError]

/-- Witness for c1_amended at the concrete empty collection. -/
theorem c1_amended_witness :
    (pointsOf exEmptyDb "empty" = [] ∧ cacheFind initState "empty" = none ∧
      ([1, 2, 3] : List ℝ) ≠ []) ∧
    (searchVectors initState exEmptyDb "empty" [1, 2, 3] 5 .Cosine =
      (initState, .error (.fileNotFoundError "Vector store not found or empty: empty")) ∧
    (apiSearchVectors exEmptyDb "empty" ⟨[1, 2, 3], 5, .Cosine⟩).2 =
      .httpError 404 "Collection empty not found") :=
  ⟨⟨rfl, rfl, List.cons_ne_nil _ _⟩,
    c1_amended exEmptyDb "empty" initState [1, 2, 3] 5 .Cosine rfl rfl (List.cons_ne_nil _ _)⟩

/-! ## Claim C2 -/

/-- Claim C2, counterexample: for the Dot metric, self-similarity is not
maximal: compute_similarity(Dot, [1], [2]) = 2 exceeds
compute_similarity(Dot, [1], [1]) = 1 although [1] is a valid non-zero
vector. -/
theorem c2_counterexample :
    computeSimilarity [(1 : ℝ)] [1] Distance.Dot <
      computeSimilarity [(1 : ℝ)] [2] Distance.Dot := by
  norm_num [computeSimilarity, dot]

/-- Claim C2, amended: for the Cosine, Euclidean and Manhattan metrics (but
not for Dot, see the counterexample) and every non-zero vector v, no vector w
attains a compute_similarity score against v above the self-similarity
compute_similarity(m, v, v). -/
theorem c2_amended (v w : List ℝ) (dt : Distance)
    (hm : dt = .Cosine ∨ dt = .Euclidean ∨ dt = .Manhattan)
    (hv : dot v v ≠ 0) :
    computeSimilarity v w dt ≤ computeSimilarity v v dt := by
  rcases hm with h | h | h <;> subst h
  · show dot (normalize v) (normalize w) ≤ dot (normalize v) (normalize v)
    rw [cosine_self v hv]
    exact cosine_le_one v w
  · show -(Real.sqrt (dot (vsub v w) (vsub v w))) ≤ -(Real.sqrt (dot (vsub v v) (vsub v v)))
    rw [dot_vsub_self, Real.sqrt_zero, neg_zero]
    exact neg_nonpos_of_nonneg (Real.sqrt_nonneg _)
  · show -(l1norm (vsub v w)) ≤ -(l1norm (vsub v v))
    rw [l1norm_vsub_self, neg_zero]
    exact neg_nonpos_of_nonneg (l1norm_nonneg _)

/-- Witness for c2_amended at the Cosine metric with v = [1, 0], w = [0, 1]. -/
theorem c2_amended_witness :
    (dot [(1 : ℝ), 0] [1, 0] ≠ 0) ∧
    computeSimilarity [(1 : ℝ), 0] [0, 1] .Cosine ≤
      computeSimilarity [(1 : ℝ), 0] [1, 0] .Cosine :=
  ⟨by norm_num [dot],
    c2_amended [1, 0] [0, 1] .Cosine (Or.inl rfl) (by norm_num [dot])⟩

/-! ## Claim C3 -/

/-- Claim C3, counterexample: for the Dot metric kind the score conversion is
not monotonic in the index's similarity ordering: the collection "d" (distance
Dot) holds embeddings [1] and [2]; searching with query [1] returns the two
points in the index's best-first inner-product order, but their converted
scores 1/(1+2) and 1/(1+1) are strictly increasing, so the returned results
are not ordered by descending score. -/
theorem c3_counterexample :
    ∃ r1 r2, okOr (searchVectors initState exDotDb "d" [1] 10 Distance.Cosine).2 =
      [r1, r2] ∧ r1.score < r2.score := by
  have hlt : ¬ faissLE .innerProduct (0, dot [(1 : ℝ)] [1]) (1, dot [(1 : ℝ)] [2]) := by
    show ¬ (dot [(1 : ℝ)] [2] ≤ dot [(1 : ℝ)] [1])
    norm_num [dot]
  have hsort : List.insertionSort (faissLE .innerProduct)
      [(0, dot [(1 : ℝ)] [1]), (1, dot [(1 : ℝ)] [2])] =
      [(1, dot [(1 : ℝ)] [2]), (0, dot [(1 : ℝ)] [1])] := by
    simp only [List.insertionSort, List.orderedInsert]
    rw [if_neg hlt]
  refine ⟨⟨"q2", "two", none, scoreOfRaw "Dot" (dot [(1 : ℝ)] [2])⟩,
          ⟨"q1", "one", none, scoreOfRaw "Dot" (dot [(1 : ℝ)] [1])⟩, ?_, ?_⟩
  · have h1 : okOr (searchVectors initState exDotDb "d" [1] 10 Distance.Cosine).2 =
        okOr (formatResults exDotEntry
          ((List.insertionSort (faissLE .innerProduct)
            [(0, dot [(1 : ℝ)] [1]), (1, dot [(1 : ℝ)] [2])]).take 2)) := rfl
    rw [h1, hsort]
    rfl
  · show scoreOfRaw "Dot" (dot [(1 : ℝ)] [2]) < scoreOfRaw "Dot" (dot [(1 : ℝ)] [1])
    rw [scoreOfRaw, scoreOfRaw, if_neg (by decide : ¬("Dot" = "Cosine")),
      if_neg (by decide : ¬("Dot" = "Cosine"))]
    norm_num [dot]

/-- Claim C3, amended: for collections whose configured distance is Cosine,
Euclidean or Manhattan (but not Dot, see the counterexample) the score
conversion is monotonic in the index's similarity ordering, so the results of
search_vectors come back ordered by descending score, in the index's native
return order. -/
theorem c3_amended (st : ServiceState) (db : DB) (name : String) (q : List ℝ)
    (topK : Int) (dt : Distance) (st' : ServiceState) (res : List SearchResult)
    (e : CacheEntry)
    (he : cacheFind st name = some e)
    (hm : e.index.metric = selectMetric e.distanceType)
    (hdt : e.distanceType = "Cosine" ∨ e.distanceType = "Euclidean" ∨
      e.distanceType = "Manhattan")
    (hrun : searchVectors st db name q topK dt = (st', .ok res)) :
    res.Pairwise fun a b => b.score ≤ a.score := by
  rw [searchVectors_hit db q topK dt he] at hrun
  have hq : queryIndex st name q topK = .ok res := (Prod.mk.inj hrun).2
  have hres := queryIndex_ok he hq
  have hsort := faissSearchRaw_sorted e.index
    (if e.distanceType = "Cosine" then normalize q else q)
    (min topK (e.points.length : Int)).toNat
  have hscore : (faissSearchRaw e.index
      (if e.distanceType = "Cosine" then normalize q else q)
      (min topK (e.points.length : Int)).toNat).Pairwise
      fun a b => scoreOfRaw e.distanceType b.2 ≤ scoreOfRaw e.distanceType a.2 := by
    rcases hdt with h | h | h
    · have hm' : e.index.metric = .innerProduct := by rw [hm, h]; rfl
      rw [hm'] at hsort
      refine hsort.imp ?_
      intro a b hab
      have hab' : b.2 ≤ a.2 := hab
      rw [h]
      simp only [scoreOfRaw, eq_self_iff_true, if_true]
      linarith
    all_goals {
      first
      | (have hm' : e.index.metric = .l2 := by rw [hm, h]; rfl)
      rw [hm'] at hsort
      have hmem : ∀ p ∈ faissSearchRaw e.index
          (if e.distanceType = "Cosine" then normalize q else q)
          (min topK (e.points.length : Int)).toNat, (0 : ℝ) ≤ p.2 := by
        intro p hp
        obtain ⟨-, v, -, hraw⟩ := mem_faissSearchRaw hp
        rw [hm'] at hraw
        rw [hraw]
        exact dot_self_nonneg _
      refine hsort.imp_of_mem ?_
      intro a b ha hb hab
      have hab' : a.2 ≤ b.2 := hab
      have ha0 : (0 : ℝ) ≤ a.2 := hmem a ha
      have hcosF : ¬ (e.distanceType = "Cosine") := by rw [h]; decide
      rw [scoreOfRaw, scoreOfRaw, if_neg hcosF, if_neg hcosF]
      have h1 : (0 : ℝ) < 1 + a.2 := by linarith
      exact one_div_le_one_div_of_le h1 (by linarith)
    }
  rw [hres]
  refine List.Pairwise.filterMap (resFun e) ?_ hscore
  intro a b hab x hx y hy
  obtain ⟨ptx, -, -, -, -, hxs⟩ := resFun_eq_some (Option.mem_def.1 hx)
  obtain ⟨pty, -, -, -, -, hys⟩ := resFun_eq_some (Option.mem_def.1 hy)
  rw [hxs, hys]
  exact hab

/-- Witness for c3_amended on the Cosine collection "c" of exDb, starting from
the state that already caches its entry. -/
theorem c3_amended_witness :
    (cacheFind exBuilt "c" = some exEntry ∧
      exEntry.index.metric = selectMetric exEntry.distanceType ∧
      (exEntry.distanceType = "Cosine" ∨ exEntry.distanceType = "Euclidean" ∨
        exEntry.distanceType = "Manhattan") ∧
      searchVectors exBuilt exDb "c" [1] 10 .Cosine =
        ((searchVectors exBuilt exDb "c" [1] 10 .Cosine).1,
          .ok (okOr (searchVectors exBuilt exDb "c" [1] 10 .Cosine).2))) ∧
    (okOr (searchVectors exBuilt exDb "c" [1] 10 .Cosine).2).Pairwise
      (fun a b => b.score ≤ a.score) :=
  ⟨⟨rfl, rfl, Or.inl rfl, rfl⟩,
    c3_amended exBuilt exDb "c" [1] 10 .Cosine _ _ exEntry rfl rfl (Or.inl rfl) rfl⟩

/-! ## Claim C4 -/

theorem ne_id_of_get? {l : List Point} (h : (l.map Point.id).Nodup) {i j : Nat}
    {a b : Point} (hij : i ≠ j) (ha : l.get? i = some a) (hb : l.get? j = some b) :
    a.id ≠ b.id := by
  intro hid
  have hia : (l.map Point.id).get? i = some a.id := by
    rw [List.get?_eq_getElem?, List.getElem?_map, ← List.get?_eq_getElem?, ha]
    rfl
  have hib : (l.map Point.id).get? j = some b.id := by
    rw [List.get?_eq_getElem?, List.getElem?_map, ← List.get?_eq_getElem?, hb]
    rfl
  have hlen : i < (l.map Point.id).length := by
    rcases List.get?_eq_some.1 hia with ⟨hw, -⟩
    exact hw
  refine hij (List.getElem?_inj hlen h ?_)
  rw [← List.get?_eq_getElem?, ← List.get?_eq_getElem?, hia, hib, hid]

/-- The ids of the loaded points of a collection inherit distinctness from the
PRIMARY KEY column of the vectors table. -/
theorem pointsOf_ids_nodup {db : DB} (name : String)
    (hids : (db.vectors.map VectorRow.id).Nodup) :
    ((pointsOf db name).map Point.id).Nodup := by
  have h1 : (pointsOf db name).map Point.id =
      (db.vectors.filter fun r => r.vectorStoreName == name).map VectorRow.id := by
    rw [pointsOf, List.map_map]
    rfl
  rw [h1]
  exact hids.sublist ((List.filter_sublist db.vectors).map VectorRow.id)

/-- A successful query phase returns at most min(top_k, point count) rows. -/
theorem queryIndex_ok_length {st1 : ServiceState} {name : String} {q : List ℝ}
    {topK : Int} {e : CacheEntry} {res : List SearchResult}
    (he : cacheFind st1 name = some e)
    (hq : queryIndex st1 name q topK = .ok res) :
    res.length ≤ (min topK (e.points.length : Int)).toNat := by
  rw [queryIndex_ok he hq]
  refine le_trans (List.length_filterMap_le _ _) ?_
  simp only [faissSearchRaw]
  exact List.length_take_le _ _

/-- A successful query phase returns pairwise distinct ids whenever the cached
points have distinct ids and the id_mapping is the enumeration. -/
theorem queryIndex_ok_nodup {st1 : ServiceState} {name : String} {q : List ℝ}
    {topK : Int} {e : CacheEntry} {res : List SearchResult}
    (hmap : e.idMapping = e.points.enum)
    (hpid : (e.points.map Point.id).Nodup)
    (he : cacheFind st1 name = some e)
    (hq : queryIndex st1 name q topK = .ok res) :
    (res.map SearchResult.id).Nodup := by
  have hres := queryIndex_ok he hq
  have hpw := faissSearchRaw_pairwise_ne e.index
    (if e.distanceType = "Cosine" then normalize q else q)
    (min topK (e.points.length : Int)).toNat
  rw [hres]
  apply List.pairwise_map.2
  refine List.Pairwise.filterMap (resFun e) ?_ hpw
  intro a b hab x hx y hy
  obtain ⟨ptx, hlx, hxid, -, -, -⟩ := resFun_eq_some (Option.mem_def.1 hx)
  obtain ⟨pty, hly, hyid, -, -, -⟩ := resFun_eq_some (Option.mem_def.1 hy)
  rw [hmap, lookup_enum] at hlx hly
  rw [hxid, hyid]
  exact ne_id_of_get? hpid hab hlx hly

/-- Claim C4: on a fresh service instance (the deployed configuration: the
controller builds a new service with an empty cache for every request), a
successful search of a collection with n points returns at most min(top_k, n)
results, and all returned ids are distinct (the stored row ids being distinct
by the PRIMARY KEY constraint of the vectors table). -/
theorem c4_result_count_and_distinct_ids (db : DB) (st : ServiceState)
    (name : String) (q : List ℝ) (topK : Int) (dt : Distance)
    (st' : ServiceState) (res : List SearchResult)
    (hids : (db.vectors.map VectorRow.id).Nodup)
    (hk : 0 ≤ topK)
    (hmiss : cacheFind st name = none)
    (hrun : searchVectors st db name q topK dt = (st', .ok res)) :
    res.length ≤ min topK.toNat (pointsOf db name).length ∧
    (res.map SearchResult.id).Nodup := by
  obtain ⟨hne, config, hc, hst, hq⟩ := searchVectors_ok_miss hmiss hrun
  have hbe := cacheFind_buildIndex st name (pointsOf db name) config hne
  rw [← hst] at hbe
  constructor
  · have h1 : res.length ≤ (min topK ((pointsOf db name).length : Int)).toNat :=
      queryIndex_ok_length hbe hq
    have h2 : res.length ≤ min topK.toNat (pointsOf db name).length := by omega
    exact h2
  · exact queryIndex_ok_nodup rfl (pointsOf_ids_nodup name hids) hbe hq

/-- Witness for c4_result_count_and_distinct_ids on a concrete fresh-instance
search of collection "c". -/
theorem c4_witness :
    ((exDb.vectors.map VectorRow.id).Nodup ∧ (0 : Int) ≤ 10 ∧
      cacheFind initState "c" = none ∧
      searchVectors initState exDb "c" [1] 10 .Cosine =
        ((searchVectors initState exDb "c" [1] 10 .Cosine).1,
          .ok (okOr (searchVectors initState exDb "c" [1] 10 .Cosine).2))) ∧
    ((okOr (searchVectors initState exDb "c" [1] 10 .Cosine).2).length ≤
      min (10 : Int).toNat (pointsOf exDb "c").length ∧
     ((okOr (searchVectors initState exDb "c" [1] 10 .Cosine).2).map
        SearchResult.id).Nodup) :=
  ⟨⟨by decide, by decide, rfl, rfl⟩,
    c4_result_count_and_distinct_ids exDb initState "c" [1] 10 .Cosine _ _
      (by decide) (by decide) rfl rfl⟩

/-! ## Claim C5 -/

/-- Claim C5: the code maps a missing point id to HTTP 400 (the
invalid-argument channel), not to a distinct point-not-found error: the
service raises ValueError("Point not found with ID: ...") which the
controller's ValueError handler turns into a 400, while the controller's
dedicated 404 point-not-found branch only matches RuntimeError and is
unreachable on this path.  Evaluated at the failing input: collection "docs"
exists, id "unknown-id" does not. -/
theorem c5_missing_point_maps_to_400 :
    apiSearchById exDocsDb "docs" "unknown-id" 1 =
      (initState, .httpError 400 "Point not found with ID: unknown-id") := rfl

/-! ## Claim C6 -/

/-- Claim C6, counterexample: top_k = 0 is not rejected as InvalidArgument,
and no validation happens before the index is consulted: the collection is
loaded and an index is built (buildCount = 1), then faiss's k > 0 assertion
raises and the controller surfaces a 500 internal error, not a 400. -/
theorem c6_counterexample :
    (apiSearchVectors exDb "c" ⟨[1], 0, .Cosine⟩).2 =
      .httpError 500 "Search failed: " ∧
    (apiSearchVectors exDb "c" ⟨[1], 0, .Cosine⟩).1.buildCount = 1 :=
  ⟨rfl, rfl⟩

/-- Claim C6, amended: the controller rejects an empty query vector with a 400
InvalidArgument before the search service (and hence any index) is consulted:
the returned service state is the untouched fresh state.  top_k is never
validated (see the counterexample: top_k = 0 reaches the index only after the
collection is loaded and the index is built, where faiss's k > 0 assertion
raises and surfaces as a 500 internal error, not an InvalidArgument 400). -/
theorem c6_amended (db : DB) (name : String) (q : SearchQuery)
    (hq : q.queryVector = []) :
    apiSearchVectors db name q =
      (initState, .httpError 400 "Query vector cannot be empty") ∧
    (apiSearchVectors db name q).1.buildCount = 0 := by
  have h : apiSearchVectors db name q =
      (initState, .httpError 400 "Query vector cannot be empty") := by
    simp [apiSearchVectors, hq]
  exact ⟨h, by rw [h]; rfl⟩

/-- Witness for c6_amended at a concrete empty-vector request. -/
theorem c6_amended_witness :
    ((⟨[], 5, .Cosine⟩ : SearchQuery).queryVector = []) ∧
    (apiSearchVectors exDb "c" ⟨[], 5, .Cosine⟩ =
      (initState, .httpError 400 "Query vector cannot be empty") ∧
    (apiSearchVectors exDb "c" ⟨[], 5, .Cosine⟩).1.buildCount = 0) :=
  ⟨rfl, c6_amended exDb "c" ⟨[], 5, .Cosine⟩ rfl⟩

/-! ## Claim C7 -/

/-- Claim C7: _build_index selects faiss.METRIC_INNER_PRODUCT for Cosine and
Dot and faiss.METRIC_L2 for Euclidean and Manhattan; for a Cosine collection
the stored vectors are the L2-normalized embeddings (unit norm whenever the
embedding is non-degenerate), and search_vectors applies the same L2
normalization to the query vector before querying the index. -/
theorem c7_metric_selection_and_normalization (st : ServiceState) (name : String)
    (points : List Point) (config : Config) (e : CacheEntry)
    (hne : points ≠ []) (hcos : config.distance.getD "Cosine" = "Cosine")
    (he : cacheFind (buildIndex st name points config) name = some e) :
    (selectMetric "Cosine" = .innerProduct ∧ selectMetric "Dot" = .innerProduct ∧
     selectMetric "Euclidean" = .l2 ∧ selectMetric "Manhattan" = .l2) ∧
    e.index.metric = .innerProduct ∧
    e.index.vectors = (points.map fun p => normalize p.embedding) ∧
    (∀ p ∈ points, dot p.embedding p.embedding ≠ 0 →
      l2norm (normalize p.embedding) = 1) ∧
    (∀ st2 (q : List ℝ) (topK : Int), cacheFind st2 name = some e →
      queryIndex st2 name q topK =
        Except.bind (faissSearch e.index (normalize q) (min topK (e.points.length : Int)))
          (formatResults e)) := by
  rw [cacheFind_buildIndex st name points config hne, hcos] at he
  have he' := Option.some.inj he
  subst he'
  refine ⟨⟨by decide, by decide, by decide, by decide⟩, ?_, ?_, ?_, ?_⟩
  · show selectMetric "Cosine" = .innerProduct
    decide
  · simp
  · exact fun p _ hp => l2norm_normalize p.embedding hp
  · intro st2 q topK hfind
    exact queryIndex_eq_of_cosine hfind rfl

/-- Witness for c7_metric_selection_and_normalization on the concrete
collection "c" of exDb. -/
theorem c7_witness :
    (pointsOf exDb "c" ≠ [] ∧ exConfig.distance.getD "Cosine" = "Cosine" ∧
      cacheFind (buildIndex initState "c" (pointsOf exDb "c") exConfig) "c" =
        some exEntry) ∧
    ((selectMetric "Cosine" = .innerProduct ∧ selectMetric "Dot" = .innerProduct ∧
      selectMetric "Euclidean" = .l2 ∧ selectMetric "Manhattan" = .l2) ∧
     exEntry.index.metric = .innerProduct ∧
     exEntry.index.vectors = ((pointsOf exDb "c").map fun p => normalize p.embedding) ∧
     (∀ p ∈ pointsOf exDb "c", dot p.embedding p.embedding ≠ 0 →
       l2norm (normalize p.embedding) = 1) ∧
     (∀ st2 (q : List ℝ) (topK : Int), cacheFind st2 "c" = some exEntry →
       queryIndex st2 "c" q topK =
         Except.bind (faissSearch exEntry.index (normalize q)
             (min topK (exEntry.points.length : Int)))
           (formatResults exEntry))) :=
  ⟨⟨List.cons_ne_nil _ _, rfl, rfl⟩,
    c7_metric_selection_and_normalization initState "c" (pointsOf exDb "c") exConfig
      exEntry (List.cons_ne_nil _ _) rfl rfl⟩

/-! ## Claim C8 -/

/-- Claim C8, counterexample: two searches for the same never-before-built
collection trigger two underlying builds, not one, because the API dependency
constructs a fresh SQLiteSearchService (with an empty index_cache) for every
request; no cache entry is ever shared between callers. -/
theorem c8_counterexample :
    totalBuilds exDb [("c", ⟨[1], 10, .Cosine⟩), ("c", ⟨[1], 10, .Cosine⟩)] = 2 := rfl

/-- Claim C8, amended: within a single service instance, a search on a
collection whose index is already cached performs no further build and leaves
the state untouched (under asyncio's run-to-completion scheduling the
check-then-build section has no internal await that yields, so per instance at
most one build occurs per collection); but the API layer constructs a fresh
instance per request, so N requests each trigger their own build (see the
counterexample). -/
theorem c8_amended (st : ServiceState) (db : DB) (name : String) (q : List ℝ)
    (topK : Int) (dt : Distance) (h : (cacheFind st name).isSome) :
    (searchVectors st db name q topK dt).1 = st ∧
    (searchVectors st db name q topK dt).1.buildCount = st.buildCount := by
  have h1 : (cacheFind st name).isNone = false := by
    rcases Option.isSome_iff_exists.1 h with ⟨e, he⟩
    simp [he]
  refine ⟨?_, ?_⟩ <;> simp [searchVectors, h1]

/-- Witness for c8_amended: the state after a first search of collection "c"
has a cached entry, and a second search leaves it unchanged. -/
theorem c8_amended_witness :
    ((cacheFind (searchVectors initState exDb "c" [1] 10 .Cosine).1 "c").isSome) ∧
    ((searchVectors (searchVectors initState exDb "c" [1] 10 .Cosine).1 exDb "c" [1] 10
        .Cosine).1 = (searchVectors initState exDb "c" [1] 10 .Cosine).1 ∧
      (searchVectors (searchVectors initState exDb "c" [1] 10 .Cosine).1 exDb "c" [1] 10
        .Cosine).1.buildCount =
        (searchVectors initState exDb "c" [1] 10 .Cosine).1.buildCount) :=
  ⟨rfl, c8_amended _ exDb "c" [1] 10 .Cosine rfl⟩

/-! ## Claim C9 -/

/-- Claim C9: search_vectors never reads its distance_type parameter - the
distance space and score conversion come from the cached collection
configuration - so two calls that differ only in distance_type return
identical states and result sequences. -/
theorem c9_distance_type_independent (st : ServiceState) (db : DB) (name : String)
    (q : List ℝ) (topK : Int) (dt1 dt2 : Distance) :
    searchVectors st db name q topK dt1 = searchVectors st db name q topK dt2 := rfl

/-! ## Claim C10 -/

/-- The cache after _build_index stores the new entry in front. -/
theorem buildIndex_cache_cons (st : ServiceState) (name : String)
    (points : List Point) (config : Config) (hne : points ≠ []) :
    (buildIndex st name points config).cache =
      (name, ⟨⟨points.headI.embedding.length, config.hnswM.getD 16,
               selectMetric (config.distance.getD "Cosine"),
               config.hnswEfConstruction.getD 200, config.hnswEfSearch.getD 50,
               if config.distance.getD "Cosine" = "Cosine" then
                 points.map fun p => normalize p.embedding
               else points.map fun p => p.embedding⟩,
              points, points.enum, config.distance.getD "Cosine"⟩) :: st.cache := by
  simp [buildIndex, isEmpty_eq_false_of_ne_nil hne]

theorem entryInv_of_cacheFind {st : ServiceState} {name : String} {e : CacheEntry}
    (hinv : stateInv st) (he : cacheFind st name = some e) : entryInv e := by
  rw [cacheFind] at he
  cases hf : st.cache.find? fun p => p.1 == name with
  | none => rw [hf] at he; cases he
  | some pr =>
      rw [hf] at he
      have hm := List.mem_of_find?_eq_some hf
      have h1 := hinv pr hm
      have h2 := Option.some.inj he
      rw [← h2]
      exact h1

/-- Case analysis for a cache-miss run of search_vectors with any outcome. -/
theorem searchVectors_miss_cases {st : ServiceState} {db : DB} {name : String}
    {q : List ℝ} {topK : Int} {dt : Distance} {st' : ServiceState}
    {r : Except PyError (List SearchResult)}
    (hmiss : cacheFind st name = none)
    (hrun : searchVectors st db name q topK dt = (st', r)) :
    (st' = st ∧ ∃ msg, r = .error msg) ∨
    (pointsOf db name ≠ [] ∧ ∃ config,
      st' = buildIndex st name (pointsOf db name) config ∧
      r = queryIndex st' name q topK) := by
  rw [searchVectors, hmiss] at hrun
  simp only [Option.isNone_none, if_true] at hrun
  cases hp : (pointsOf db name).isEmpty with
  | true =>
      rw [loadPoints] at hrun
      simp only [hp, if_true] at hrun
      exact Or.inl ⟨(Prod.mk.inj hrun).1.symm, _, (Prod.mk.inj hrun).2.symm⟩
  | false =>
      have hne : pointsOf db name ≠ [] := by
        intro h
        rw [h] at hp
        cases hp
      rw [loadPoints] at hrun
      simp only [hp, if_false, Bool.false_eq_true] at hrun
      cases hc : getVectorStoreConfig db name with
      | error err =>
          rw [hc] at hrun
          exact Or.inl ⟨(Prod.mk.inj hrun).1.symm, _, (Prod.mk.inj hrun).2.symm⟩
      | ok config =>
          rw [hc] at hrun
          have h1 := (Prod.mk.inj hrun).1
          have h2 := (Prod.mk.inj hrun).2
          exact Or.inr ⟨hne, config, h1.symm, by rw [h1] at h2; exact h2.symm⟩

/-- Every result of a successful query phase carries the id, content and
metadata of a point of the cached entry. -/
theorem queryIndex_ok_fields {st1 : ServiceState} {name : String} {q : List ℝ}
    {topK : Int} {e : CacheEntry} {res : List SearchResult}
    (hmap : e.idMapping = e.points.enum)
    (he : cacheFind st1 name = some e)
    (hq : queryIndex st1 name q topK = .ok res) :
    ∀ x ∈ res, ∃ p ∈ e.points, x.id = p.id ∧ x.content = p.content ∧
      x.metadata = p.metadata := by
  intro x hx
  rw [queryIndex_ok he hq] at hx
  obtain ⟨a, -, hfa⟩ := List.mem_filterMap.1 hx
  obtain ⟨pt, hl, hid, hct, hmd, -⟩ := resFun_eq_some hfa
  rw [hmap, lookup_enum] at hl
  exact ⟨pt, List.get?_mem hl, hid, hct, hmd⟩

/-- Claim C10: the cache-entry invariant (non-empty point list, id_mapping
equal to the enumeration of the points in insertion order) holds for every
stored entry, is preserved by search_vectors, and every returned result
carries the id, content and metadata of a point of the entry that served it. -/
theorem c10_cache_entry_invariant (st : ServiceState) (db : DB) (name : String)
    (q : List ℝ) (topK : Int) (dt : Distance) (st' : ServiceState)
    (r : Except PyError (List SearchResult))
    (hinv : stateInv st)
    (hrun : searchVectors st db name q topK dt = (st', r)) :
    stateInv st' ∧
    ∀ res, r = .ok res → ∃ e, cacheFind st' name = some e ∧ entryInv e ∧
      ∀ x ∈ res, ∃ p ∈ e.points, x.id = p.id ∧ x.content = p.content ∧
        x.metadata = p.metadata := by
  cases hfind : cacheFind st name with
  | some e =>
      rw [searchVectors_hit db q topK dt hfind] at hrun
      have h1 := (Prod.mk.inj hrun).1
      have h2 := (Prod.mk.inj hrun).2
      subst h1
      refine ⟨hinv, ?_⟩
      intro res hres
      have hq : queryIndex st name q topK = .ok res := h2.trans hres
      have hei := entryInv_of_cacheFind hinv hfind
      exact ⟨e, hfind, hei, queryIndex_ok_fields hei.2 hfind hq⟩
  | none =>
      rcases searchVectors_miss_cases hfind hrun with ⟨hst, msg, hr⟩ |
        ⟨hne, config, hst, hr⟩
      · subst hst
        refine ⟨hinv, ?_⟩
        intro res hres
        rw [hr] at hres
        cases hres
      · have hbe := cacheFind_buildIndex st name (pointsOf db name) config hne
        rw [← hst] at hbe
        have hinv' : stateInv st' := by
          intro p hp
          rw [hst, buildIndex_cache_cons st name (pointsOf db name) config hne] at hp
          rcases List.mem_cons.1 hp with h | h
          · rw [h]
            exact ⟨hne, rfl⟩
          · exact hinv p h
        refine ⟨hinv', ?_⟩
        intro res hres
        have hq : queryIndex st' name q topK = .ok res := hr.symm.trans hres
        have hei : entryInv (⟨⟨(pointsOf db name).headI.embedding.length,
            config.hnswM.getD 16, selectMetric (config.distance.getD "Cosine"),
            config.hnswEfConstruction.getD 200, config.hnswEfSearch.getD 50,
            if config.distance.getD "Cosine" = "Cosine" then
              (pointsOf db name).map fun p => normalize p.embedding
            else (pointsOf db name).map fun p => p.embedding⟩,
            pointsOf db name, (pointsOf db name).enum,
            config.distance.getD "Cosine"⟩ : CacheEntry) := ⟨hne, rfl⟩
        exact ⟨_, hbe, hei, queryIndex_ok_fields hei.2 hbe hq⟩

/-- Witness for c10_cache_entry_invariant on a concrete fresh-instance search
of collection "c". -/
theorem c10_witness :
    (stateInv initState ∧
      searchVectors initState exDb "c" [1] 10 .Cosine =
        ((searchVectors initState exDb "c" [1] 10 .Cosine).1,
          (searchVectors initState exDb "c" [1] 10 .Cosine).2)) ∧
    (stateInv (searchVectors initState exDb "c" [1] 10 .Cosine).1 ∧
     ∀ res, (searchVectors initState exDb "c" [1] 10 .Cosine).2 = .ok res →
       ∃ e, cacheFind (searchVectors initState exDb "c" [1] 10 .Cosine).1 "c" = some e ∧
         entryInv e ∧ ∀ x ∈ res, ∃ p ∈ e.points, x.id = p.id ∧
           x.content = p.content ∧ x.metadata = p.metadata) :=
  ⟨⟨fun p hp => absurd hp (List.not_mem_nil p), rfl⟩,
    c10_cache_entry_invariant initState exDb "c" [1] 10 .Cosine _ _
      (fun p hp => absurd hp (List.not_mem_nil p)) rfl⟩

end Cosline
